import Mathlib

/-!
Verification of `convert-font.py`, a WOFF2-to-TTF conversion utility.

The script is a linear sequence: read `sys.argv[1]` and `sys.argv[2]`,
load a font with `TTFont`, set `font.flavor = None`, save to the
destination path, print a confirmation line.  We embed the script as a
function from the argument vector and a file-system state to a run
result (final file system, standard-output lines, and the error raised,
if any).  The external fontTools library is not part of the repository;
it is modelled from the spec as a capability interface
`load(path) -> FontHandle`, `setFlavor`, `save` over an abstract font
value consisting of opaque table content plus a flavor indicator.  The
file-system state carries, besides the stored files, a per-path write
capability, so that a save can fail with an IO error when the
destination's directory is missing or unwritable, leaving a truncated
or absent destination file, as the spec's error taxonomy describes.
-/

namespace ConvertFont

/-- The wrapper/compression flavor indicator of a font container.
`none` (at the `Option Flavor` level) means plain TTF/OTF. -/
inductive Flavor where
  | woff2 : Flavor
  | woff : Flavor
deriving DecidableEq

/-- Modelled from the spec: the font handle, "an in-memory representation
of a font file's tables and metadata, opaque to this script except for
one mutable attribute, the flavor".  The table data is opaque bytes. -/
structure Font where
  content : List Nat
  flavor : Option Flavor
deriving DecidableEq

/-- Leading container tag encoding the flavor in the serialized form. -/
def flavorTag : Option Flavor → Nat
  | none => 0
  | some Flavor.woff2 => 1
  | some Flavor.woff => 2

/-- Modelled from the spec: the library's `save` serialization, missing
from the repository (it lives in fontTools).  "Full fidelity is delegated
to the external library's encode/decode correctness": serialization is a
deterministic injective encoding of container flavor plus table data. -/
def serialize (f : Font) : List Nat :=
  flavorTag f.flavor :: f.content

/-- Modelled from the spec: the library's font-container decoder, missing
from the repository (it lives in fontTools).  A byte string is a
well-formed font container exactly when it carries a recognized flavor
tag; decoding recovers the flavor and the table data. -/
def parseFont : List Nat → Option Font
  | [] => none
  | 0 :: rest => some ⟨rest, none⟩
  | 1 :: rest => some ⟨rest, some Flavor.woff2⟩
  | 2 :: rest => some ⟨rest, some Flavor.woff⟩
  | _ :: _ => none

/-- Stored files: an association of paths to byte contents. -/
abbrev Disk := List (String × List Nat)

/-- Read the stored file at path `p`, if it exists. -/
def diskRead : Disk → String → Option (List Nat)
  | [], _ => none
  | (q, b) :: rest, p => if q = p then some b else diskRead rest p

/-- Store bytes `b` at path `p`, silently overwriting an existing file. -/
def diskWrite : Disk → String → List Nat → Disk
  | [], p, b => [(p, b)]
  | (q, c) :: rest, p, b =>
    if q = p then (p, b) :: rest else (q, c) :: diskWrite rest p b

/-- Modelled from the spec: the write capability of a destination path.
The spec's error taxonomy has a save-time IO error — "destination
path's directory does not exist or is not writable" — and notes that "a
failed save may leave a truncated or absent destination file".
`ok` means the directory exists and is writable, so a save succeeds;
`truncatedAfter n` means the write fails after `n` bytes, leaving a
truncated destination; `noDir` means the directory is missing, so the
save fails with no destination file created. -/
inductive WriteCap where
  | ok : WriteCap
  | truncatedAfter : Nat → WriteCap
  | noDir : WriteCap
deriving DecidableEq

/-- Per-path write capabilities; a path not listed is writable. -/
def capLookup : List (String × WriteCap) → String → WriteCap
  | [], _ => WriteCap.ok
  | (q, c) :: rest, p => if q = p then c else capLookup rest p

/-- The file system: the stored files together with each path's write
capability. -/
structure FS where
  files : Disk
  caps : List (String × WriteCap)
deriving DecidableEq

/-- The write capability of path `p` in file system `fs`. -/
def capOf (fs : FS) (p : String) : WriteCap :=
  capLookup fs.caps p

/-- Read the file at path `p`, if it exists. -/
def fsRead (fs : FS) (p : String) : Option (List Nat) :=
  diskRead fs.files p

/-- The runtime errors the script can raise: `IndexError` from
`sys.argv` access, an IO error (file-not-found on loading a missing
source, or a missing/unwritable destination directory on save), and a
parse error from an unrecognized font container. -/
inductive Err where
  | indexError : Err
  | ioError : Err
  | parseError : Err
deriving DecidableEq

/-- Modelled from the spec: `TTFont(path)` loads and decodes the font at
`path`, raising a file-not-found/IO error when the path does not
reference an existing readable file and a parse error when the contents
are not a well-formed font container. -/
def TTFont (fs : FS) (path : String) : Except Err Font :=
  match fsRead fs path with
  | none => Except.error Err.ioError
  | some bytes =>
    match parseFont bytes with
    | none => Except.error Err.parseError
    | some f => Except.ok f

/-- Modelled from the spec: `font.save(path)` serializes the font to
`path`.  When the destination directory is missing or not writable the
save raises an IO error; per the spec, a failed save may leave a
truncated or absent destination file.  The result pairs the raised
error, if any, with the file system after the attempt. -/
def fontSave (f : Font) (fs : FS) (p : String) : Option Err × FS :=
  match capOf fs p with
  | WriteCap.ok =>
    (none, { fs with files := diskWrite fs.files p (serialize f) })
  | WriteCap.truncatedAfter n =>
    (some Err.ioError, { fs with files := diskWrite fs.files p ((serialize f).take n) })
  | WriteCap.noDir => (some Err.ioError, fs)

/-- `sys.argv[i]`: raises `IndexError` when the index is out of range. -/
def getArg (argv : List String) (i : Nat) : Except Err String :=
  match argv[i]? with
  | none => Except.error Err.indexError
  | some s => Except.ok s

/-- The observable outcome of one run of the script: the final file
system, the lines printed to standard output, and the unhandled error
that reached the process boundary, if any. -/
structure RunResult where
  fs : FS
  stdout : List String
  err : Option Err
deriving DecidableEq

/-- Process exit status: 0 on success, the runtime default 1 when an
unhandled error reaches the process boundary. -/
def exitCode (r : RunResult) : Nat :=
  if r.err = none then 0 else 1

/-- The script `convert-font.py`, embedded line by line.  `argv` is the
full `sys.argv`, whose index 0 is the program name.  The script handles
no error locally: the first error raised aborts the run with standard
output still empty, the file system as the failing step left it. -/
def convertFont (argv : List String) (fs : FS) : RunResult :=
  match getArg argv 1 with
  | Except.error e => ⟨fs, [], some e⟩
  | Except.ok woff2_path =>
    match getArg argv 2 with
    | Except.error e => ⟨fs, [], some e⟩
    | Except.ok ttf_path =>
      match TTFont fs woff2_path with
      | Except.error e => ⟨fs, [], some e⟩
      | Except.ok font =>
        let font2 : Font := { font with flavor := none }
        match fontSave font2 fs ttf_path with
        | (some e, fs2) => ⟨fs2, [], some e⟩
        | (none, fs2) =>
          ⟨fs2, ["Converted " ++ woff2_path ++ " to " ++ ttf_path], none⟩

/-- Reading back a just-stored path yields the stored bytes. -/
theorem diskRead_diskWrite_same (d : Disk) (p : String) (b : List Nat) :
    diskRead (diskWrite d p b) p = some b := by
  induction d with
  | nil => simp [diskWrite, diskRead]
  | cons hd rest ih =>
    obtain ⟨q, c⟩ := hd
    by_cases h : q = p <;> simp [diskWrite, diskRead, h, ih]

/-- Storing at one path leaves every other path unchanged. -/
theorem diskRead_diskWrite_ne (d : Disk) (p q : String) (b : List Nat)
    (h : p ≠ q) :
    diskRead (diskWrite d q b) p = diskRead d p := by
  have hqp : ¬q = p := fun hqp => h hqp.symm
  induction d with
  | nil => simp [diskWrite, diskRead, hqp]
  | cons hd rest ih =>
    obtain ⟨a, c⟩ := hd
    by_cases ha : a = q
    · subst ha
      simp [diskWrite, diskRead, hqp]
    · simp [diskWrite, diskRead, ha, ih]

/-- Decoding inverts serialization: the library's round-trip fidelity. -/
theorem parseFont_serialize (f : Font) : parseFont (serialize f) = some f := by
  obtain ⟨c, fl⟩ := f
  rcases fl with _ | fl
  · rfl
  · cases fl <;> rfl

/-- Shape of a successful run: with both arguments present, a loadable
source font and a writable destination, the run stores the
flavor-cleared serialization at the destination and prints the
confirmation line. -/
theorem convertFont_success_eq (argv : List String) (fs : FS)
    (s d : String) (f : Font)
    (hs : argv[1]? = some s) (hd : argv[2]? = some d)
    (hload : TTFont fs s = Except.ok f)
    (hcap : capOf fs d = WriteCap.ok) :
    convertFont argv fs =
      ⟨{ fs with files := diskWrite fs.files d (serialize ⟨f.content, none⟩) },
       ["Converted " ++ s ++ " to " ++ d], none⟩ := by
  simp [convertFont, getArg, hs, hd, hload, fontSave, hcap]

/-- Claim C1: on every successful run, the font handle's flavor is unset
(none) at the time the destination file is written, whatever the input's
original flavor, so the destination holds a plain TTF/OTF container. -/
theorem flavor_none_at_write (argv : List String) (fs : FS) (d : String)
    (hd : argv[2]? = some d)
    (hok : (convertFont argv fs).err = none) :
    ∃ f : Font, fsRead (convertFont argv fs).fs d = some (serialize f) ∧
      f.flavor = none := by
  rcases h1 : argv[1]? with _ | s
  · simp [convertFont, getArg, h1] at hok
  · rcases h3 : TTFont fs s with e3 | f
    · simp [convertFont, getArg, h1, hd, h3] at hok
    · rcases hc : capOf fs d with _ | n | _
      · refine ⟨⟨f.content, none⟩, ?_, rfl⟩
        rw [convertFont_success_eq argv fs s d f h1 hd h3 hc]
        exact diskRead_diskWrite_same fs.files d _
      · simp [convertFont, getArg, h1, hd, h3, fontSave, hc] at hok
      · simp [convertFont, getArg, h1, hd, h3, fontSave, hc] at hok

/-- Claim C1, witness: a concrete successful run whose output parses back
with flavor none. -/
theorem flavor_none_at_write_witness :
    ∃ f : Font,
      fsRead (convertFont ["convert-font.py", "a.woff2", "b.ttf"]
        ⟨[("a.woff2", [1, 2, 3])], []⟩).fs "b.ttf" = some (serialize f) ∧
      f.flavor = none :=
  flavor_none_at_write ["convert-font.py", "a.woff2", "b.ttf"]
    ⟨[("a.woff2", [1, 2, 3])], []⟩ "b.ttf" (by decide) (by decide)

/-- Claim C2: on every successful run with source `s` and destination
`d`, standard output is exactly the single line `Converted s to d`. -/
theorem success_message_format (argv : List String) (fs : FS) (s d : String)
    (hs : argv[1]? = some s) (hd : argv[2]? = some d)
    (hok : (convertFont argv fs).err = none) :
    (convertFont argv fs).stdout = ["Converted " ++ s ++ " to " ++ d] := by
  rcases h3 : TTFont fs s with e3 | f
  · simp [convertFont, getArg, hs, hd, h3] at hok
  · rcases hc : capOf fs d with _ | n | _
    · rw [convertFont_success_eq argv fs s d f hs hd h3 hc]
    · simp [convertFont, getArg, hs, hd, h3, fontSave, hc] at hok
    · simp [convertFont, getArg, hs, hd, h3, fontSave, hc] at hok

/-- Claim C2, witness: the message of a concrete successful run. -/
theorem success_message_format_witness :
    (convertFont ["convert-font.py", "a.woff2", "b.ttf"]
      ⟨[("a.woff2", [0])], []⟩).stdout =
      ["Converted " ++ "a.woff2" ++ " to " ++ "b.ttf"] :=
  success_message_format ["convert-font.py", "a.woff2", "b.ttf"]
    ⟨[("a.woff2", [0])], []⟩ "a.woff2" "b.ttf" (by decide) (by decide)
    (by decide)

/-- Claim C3: with fewer than two positional arguments (full `sys.argv`
shorter than 3, index 0 being the program name), the run raises
`IndexError`, exits non-zero, and leaves the file system untouched. -/
theorem missing_args_fail (argv : List String) (fs : FS)
    (h : argv.length < 3) :
    convertFont argv fs = ⟨fs, [], some Err.indexError⟩ ∧
    exitCode (convertFont argv fs) ≠ 0 := by
  have he : convertFont argv fs = ⟨fs, [], some Err.indexError⟩ := by
    rcases argv with _ | ⟨a, _ | ⟨b, _ | ⟨c, t⟩⟩⟩
    · rfl
    · rfl
    · rfl
    · simp only [List.length_cons] at h
      omega
  refine ⟨he, ?_⟩
  rw [he]
  simp [exitCode]

/-- Claim C3, witness: one positional argument raises `IndexError`. -/
theorem missing_args_fail_witness :
    convertFont ["convert-font.py", "a.woff2"] ⟨[], []⟩ =
      ⟨⟨[], []⟩, [], some Err.indexError⟩ ∧
    exitCode (convertFont ["convert-font.py", "a.woff2"] ⟨[], []⟩) ≠ 0 :=
  missing_args_fail ["convert-font.py", "a.woff2"] ⟨[], []⟩ (by decide)

/-- Claim C4, counterexample: with three positional arguments (one
extra) and a readable source font, the run succeeds with exit status 0
instead of failing with an argument/index error. -/
theorem extra_args_accepted_counterexample :
    (convertFont ["convert-font.py", "a.woff2", "b.ttf", "extra"]
      ⟨[("a.woff2", [1, 7])], []⟩).err = none ∧
    exitCode (convertFont ["convert-font.py", "a.woff2", "b.ttf", "extra"]
      ⟨[("a.woff2", [1, 7])], []⟩) = 0 := by
  decide

/-- Claim C4, amended: extra command-line arguments beyond the first two
positional ones are silently ignored; the run behaves exactly as if only
the first two positional arguments had been given. -/
theorem extra_args_ignored (a b c : String) (rest : List String) (fs : FS) :
    convertFont (a :: b :: c :: rest) fs = convertFont [a, b, c] fs := by
  simp [convertFont, getArg]

/-- Claim C5: when the source path does not reference an existing file,
the run raises an IO/file-not-found error, exits non-zero, and creates
no destination file (the file system is unchanged). -/
theorem missing_source_fails (argv : List String) (fs : FS) (s d : String)
    (hs : argv[1]? = some s) (hd : argv[2]? = some d)
    (hmiss : fsRead fs s = none) :
    convertFont argv fs = ⟨fs, [], some Err.ioError⟩ ∧
    exitCode (convertFont argv fs) ≠ 0 := by
  have hload : TTFont fs s = Except.error Err.ioError := by
    simp [TTFont, hmiss]
  have he : convertFont argv fs = ⟨fs, [], some Err.ioError⟩ := by
    simp [convertFont, getArg, hs, hd, hload]
  refine ⟨he, ?_⟩
  rw [he]
  simp [exitCode]

/-- Claim C5, witness: a concrete run with a missing source file. -/
theorem missing_source_fails_witness :
    convertFont ["convert-font.py", "missing.woff2", "b.ttf"] ⟨[], []⟩ =
      ⟨⟨[], []⟩, [], some Err.ioError⟩ ∧
    exitCode (convertFont ["convert-font.py", "missing.woff2", "b.ttf"]
      ⟨[], []⟩) ≠ 0 :=
  missing_source_fails ["convert-font.py", "missing.woff2", "b.ttf"]
    ⟨[], []⟩ "missing.woff2" "b.ttf" (by decide) (by decide) (by decide)

/-- Claim C6: no error is handled locally: the exit status is 0 exactly
when the run completed without error, and whichever step raises first —
argument access, load, or save — that exact error reaches the process
boundary unmodified; a failed save in particular surfaces its IO error
with the file system exactly as the failed save left it (possibly a
truncated or absent destination). -/
theorem exit_zero_iff_success (argv : List String) (fs : FS) :
    (exitCode (convertFont argv fs) = 0 ↔ (convertFont argv fs).err = none) ∧
    (argv[1]? = none →
      convertFont argv fs = ⟨fs, [], some Err.indexError⟩) ∧
    (∀ s : String, argv[1]? = some s → argv[2]? = none →
      convertFont argv fs = ⟨fs, [], some Err.indexError⟩) ∧
    (∀ s d : String, ∀ e : Err, argv[1]? = some s → argv[2]? = some d →
      TTFont fs s = Except.error e →
      convertFont argv fs = ⟨fs, [], some e⟩) ∧
    (∀ s d : String, ∀ f : Font, ∀ e : Err, ∀ fs2 : FS,
      argv[1]? = some s → argv[2]? = some d → TTFont fs s = Except.ok f →
      fontSave ⟨f.content, none⟩ fs d = (some e, fs2) →
      convertFont argv fs = ⟨fs2, [], some e⟩) := by
  refine ⟨?_, ?_, ?_, ?_, ?_⟩
  · rcases h1 : argv[1]? with _ | s
    · simp [convertFont, getArg, h1, exitCode]
    · rcases h2 : argv[2]? with _ | d
      · simp [convertFont, getArg, h1, h2, exitCode]
      · rcases h3 : TTFont fs s with e3 | f
        · simp [convertFont, getArg, h1, h2, h3, exitCode]
        · rcases hc : capOf fs d with _ | n | _ <;>
            simp [convertFont, getArg, h1, h2, h3, fontSave, hc, exitCode]
  · intro h1
    simp [convertFont, getArg, h1]
  · intro s h1 h2
    simp [convertFont, getArg, h1, h2]
  · intro s d e h1 h2 h3
    simp [convertFont, getArg, h1, h2, h3]
  · intro s d f e fs2 h1 h2 h3 hsave
    simp [convertFont, getArg, h1, h2, h3, hsave]

/-- Claim C6, witness: the save-error clause applied to a concrete run
whose destination directory is missing: the save's IO error reaches the
boundary unmodified and no destination file is created. -/
theorem exit_zero_iff_success_witness :
    convertFont ["convert-font.py", "a.woff2", "b.ttf"]
      ⟨[("a.woff2", [1, 5])], [("b.ttf", WriteCap.noDir)]⟩ =
      ⟨⟨[("a.woff2", [1, 5])], [("b.ttf", WriteCap.noDir)]⟩, [],
       some Err.ioError⟩ :=
  (exit_zero_iff_success ["convert-font.py", "a.woff2", "b.ttf"]
    ⟨[("a.woff2", [1, 5])], [("b.ttf", WriteCap.noDir)]⟩).2.2.2.2
    "a.woff2" "b.ttf" ⟨[5], some Flavor.woff2⟩ Err.ioError
    ⟨[("a.woff2", [1, 5])], [("b.ttf", WriteCap.noDir)]⟩
    (by decide) (by decide) rfl (by decide)

/-- Claim C7: converting an already flavor-less font again, with the
destination writable, succeeds and produces byte-for-byte identical
output, with flavor still none. -/
theorem reconversion_idempotent (argv : List String) (fs : FS)
    (s d : String) (f : Font)
    (hs : argv[1]? = some s) (hd : argv[2]? = some d)
    (hf : f.flavor = none) (hsrc : fsRead fs s = some (serialize f))
    (hcap : capOf fs d = WriteCap.ok) :
    (convertFont argv fs).err = none ∧
    fsRead (convertFont argv fs).fs d = some (serialize f) := by
  have hload : TTFont fs s = Except.ok f := by
    simp [TTFont, hsrc, parseFont_serialize]
  have hfe : (⟨f.content, none⟩ : Font) = f := by
    obtain ⟨c, fl⟩ := f
    simp_all
  have heq := convertFont_success_eq argv fs s d f hs hd hload hcap
  rw [hfe] at heq
  rw [heq]
  exact ⟨rfl, diskRead_diskWrite_same fs.files d _⟩

/-- Claim C7, witness: re-converting a concrete flavor-less font returns
the very same bytes. -/
theorem reconversion_idempotent_witness :
    (convertFont ["convert-font.py", "a.ttf", "b.ttf"]
      ⟨[("a.ttf", serialize ⟨[7], none⟩)], []⟩).err = none ∧
    fsRead (convertFont ["convert-font.py", "a.ttf", "b.ttf"]
      ⟨[("a.ttf", serialize ⟨[7], none⟩)], []⟩).fs "b.ttf" =
      some (serialize ⟨[7], none⟩) :=
  reconversion_idempotent ["convert-font.py", "a.ttf", "b.ttf"]
    ⟨[("a.ttf", serialize ⟨[7], none⟩)], []⟩ "a.ttf" "b.ttf" ⟨[7], none⟩
    (by decide) (by decide) (by decide) (by decide) (by decide)

/-- Claim C8: for a well-formed source font and a writable destination,
the destination file decodes to the same table content as the source,
differing only in the flavor framing, which becomes none. -/
theorem content_preserved (argv : List String) (fs : FS)
    (s d : String) (bytes : List Nat) (f : Font)
    (hs : argv[1]? = some s) (hd : argv[2]? = some d)
    (hb : fsRead fs s = some bytes) (hp : parseFont bytes = some f)
    (hcap : capOf fs d = WriteCap.ok) :
    ∃ g : Font, fsRead (convertFont argv fs).fs d = some (serialize g) ∧
      g.content = f.content ∧ g.flavor = none := by
  have hload : TTFont fs s = Except.ok f := by
    simp [TTFont, hb, hp]
  refine ⟨⟨f.content, none⟩, ?_, rfl, rfl⟩
  rw [convertFont_success_eq argv fs s d f hs hd hload hcap]
  exact diskRead_diskWrite_same fs.files d _

/-- Claim C8, witness: content preservation on a concrete WOFF2 source. -/
theorem content_preserved_witness :
    ∃ g : Font,
      fsRead (convertFont ["convert-font.py", "a.woff2", "b.ttf"]
        ⟨[("a.woff2", [1, 9])], []⟩).fs "b.ttf" = some (serialize g) ∧
      g.content = (Font.mk [9] (some Flavor.woff2)).content ∧
      g.flavor = none :=
  content_preserved ["convert-font.py", "a.woff2", "b.ttf"]
    ⟨[("a.woff2", [1, 9])], []⟩ "a.woff2" "b.ttf" [1, 9]
    ⟨[9], some Flavor.woff2⟩ (by decide) (by decide) (by decide) (by decide)
    (by decide)

/-- Claim C9, counterexample: when the destination path equals the source
path, the script does write to the source path and changes its content:
the source held WOFF2 bytes and now holds the flavor-cleared bytes. -/
theorem source_path_overwritten_counterexample :
    fsRead (convertFont ["convert-font.py", "a.woff2", "a.woff2"]
      ⟨[("a.woff2", [1, 5])], []⟩).fs "a.woff2" ≠ some [1, 5] := by
  decide

/-- Claim C9, amended: the script writes only to the destination path:
every path other than the destination, in particular a source path that
differs from the destination, is unchanged after execution — including
after a failed save, which touches at most the destination. -/
theorem writes_only_destination (argv : List String) (fs : FS)
    (d p : String) (hd : argv[2]? = some d) (hp : p ≠ d) :
    fsRead (convertFont argv fs).fs p = fsRead fs p := by
  rcases h1 : argv[1]? with _ | s
  · simp [convertFont, getArg, h1]
  · rcases h3 : TTFont fs s with e3 | f
    · simp [convertFont, getArg, h1, hd, h3]
    · rcases hc : capOf fs d with _ | n | _
      · rw [convertFont_success_eq argv fs s d f h1 hd h3 hc]
        exact diskRead_diskWrite_ne fs.files p d _ hp
      · simp only [convertFont, getArg, h1, hd, h3, fontSave, hc]
        exact diskRead_diskWrite_ne fs.files p d _ hp
      · simp [convertFont, getArg, h1, hd, h3, fontSave, hc]

/-- Claim C9 amended, witness: a concrete run leaves its distinct source
path unchanged. -/
theorem writes_only_destination_witness :
    fsRead (convertFont ["convert-font.py", "a.woff2", "b.ttf"]
      ⟨[("a.woff2", [2, 4])], []⟩).fs "a.woff2" =
      fsRead ⟨[("a.woff2", [2, 4])], []⟩ "a.woff2" :=
  writes_only_destination ["convert-font.py", "a.woff2", "b.ttf"]
    ⟨[("a.woff2", [2, 4])], []⟩ "b.ttf" "a.woff2" (by decide) (by decide)

/-- Claim C10: the confirmation is printed only after the save completed:
on every failed run — argument, load, or save error, a failed save
included — standard output is empty. -/
theorem stdout_empty_on_error (argv : List String) (fs : FS)
    (h : (convertFont argv fs).err ≠ none) :
    (convertFont argv fs).stdout = [] := by
  rcases h1 : argv[1]? with _ | s
  · simp [convertFont, getArg, h1]
  · rcases h2 : argv[2]? with _ | d
    · simp [convertFont, getArg, h1, h2]
    · rcases h3 : TTFont fs s with e3 | f
      · simp [convertFont, getArg, h1, h2, h3]
      · rcases hc : capOf fs d with _ | n | _
        · exact absurd
            (by simp [convertFont, getArg, h1, h2, h3, fontSave, hc]) h
        · simp [convertFont, getArg, h1, h2, h3, fontSave, hc]
        · simp [convertFont, getArg, h1, h2, h3, fontSave, hc]

/-- Claim C10, witness: a concrete run whose save fails midway — the
destination is left truncated — prints nothing. -/
theorem stdout_empty_on_error_witness :
    (convertFont ["convert-font.py", "a.woff2", "b.ttf"]
      ⟨[("a.woff2", [1, 5])],
       [("b.ttf", WriteCap.truncatedAfter 1)]⟩).stdout = [] :=
  stdout_empty_on_error ["convert-font.py", "a.woff2", "b.ttf"]
    ⟨[("a.woff2", [1, 5])], [("b.ttf", WriteCap.truncatedAfter 1)]⟩
    (by decide)

end ConvertFont
